import Mathlib

/-!
Verification development for the build-orchestration core of the
nx-plugins repository: the esbuild build executor that drives an ESBuild
bundler stream and a tsc type-checker stream and combines them into one
build-result stream.

Observables are embedded as finite emission traces: a list of emitted
values followed by either normal completion or an error termination
(the `errored` flag).  This captures the order of emissions, the
completion/error distinction, and the semantics of the rxjs operators
the executor uses (map, tap, startWith, zip, merge, catchError,
toPromise, bufferUntil) on finite traces.
-/

/-- A finite trace of an rxjs Observable: the values it emits, in order,
and whether it terminates with an error (`errored = true`) or completes
normally (`errored = false`). -/
structure Obs (α : Type) where
  values : List α
  errored : Bool
  deriving Repr, DecidableEq

/-- rxjs `map` operator on a trace: transforms each emitted value,
error termination passes through. -/
def mapObs (f : α → β) (s : Obs α) : Obs β :=
  ⟨s.values.map f, s.errored⟩

/-- rxjs `startWith` operator: prepends one value before the source's
emissions. -/
def startWithObs (x : α) (s : Obs α) : Obs α :=
  ⟨x :: s.values, s.errored⟩

/-- rxjs `catchError` operator with a replacement observable: when the
source errors, the emissions so far are followed by the replacement
trace; a source that completes normally is unchanged. -/
def catchErrorObs (s : Obs α) (h : Obs α) : Obs α :=
  if s.errored then ⟨s.values ++ h.values, h.errored⟩ else s

/-- rxjs `zip` of two traces: pairs values index-wise (extras from the
longer source are never paired); an error in either source errors the
result. -/
def zipObs (s : Obs α) (t : Obs β) : Obs (α × β) :=
  ⟨s.values.zip t.values, s.errored || t.errored⟩

/-- rxjs `toPromise()`: waits for the source to terminate; on normal
completion it resolves with the last emitted value (`none` when the
source completed without emitting), on error termination the promise
rejects (modelled as `Except.error`). -/
def toPromiseObs (s : Obs α) : Except Unit (Option α) :=
  if s.errored then Except.error () else Except.ok s.values.getLast?

/-- One interleaving of two lists driven by a schedule: `true` picks the
next element of `xs`, `false` the next of `ys`; an exhausted side or an
exhausted schedule drains the rest in order.  This makes the
nondeterministic arrival order of rxjs `merge` explicit. -/
def interleave (sched : List Bool) (xs ys : List α) : List α :=
  match sched, xs, ys with
  | _, [], ys => ys
  | _, x :: xs, [] => x :: xs
  | [], x :: xs, ys => x :: xs ++ ys
  | true :: s, x :: xs, ys => x :: interleave s xs ys
  | false :: s, xs, y :: ys => y :: interleave s xs ys

/-- rxjs `merge` of two traces under a given arrival schedule: emits one
interleaving of the two sources that preserves each source's order; an
error in either source errors the result. -/
def mergeObs (sched : List Bool) (s t : Obs α) : Obs α :=
  ⟨interleave sched s.values t.values, s.errored || t.errored⟩

/-- `l` is an order-preserving interleaving of `xs` and `ys`. -/
inductive Interleaving : List α → List α → List α → Prop where
  | nil : Interleaving [] [] []
  | left {x : α} {xs ys l : List α} :
      Interleaving xs ys l → Interleaving (x :: xs) ys (x :: l)
  | right {y : α} {xs ys l : List α} :
      Interleaving xs ys l → Interleaving xs (y :: ys) (y :: l)

/-! ### String matching for the tsc completion marker

The executor tests tsc output against the JavaScript regular expression
`/Found\s\d*\serror/` via `String.prototype.match` (an unanchored
substring search) and against the literal substring `'Found 0 errors'`
via `String.prototype.includes`.  Both are embedded as executable
character-list scans.  `\s` is modelled by its ASCII cases (space, tab,
newline, carriage return, vertical tab, form feed); all marker strings
the backend produces use plain spaces. -/

/-- ASCII cases of the JavaScript regex class `\s`. -/
def isWsChar (c : Char) : Bool :=
  c = ' ' || c = '\t' || c = '\n' || c = '\r' || c = '\x0b' || c = '\x0c'

/-- After `Found\s` has been consumed: greedily consume `\d*`, then
require one `\s` character followed by the literal `error`.  (Since
`\d` and `\s` are disjoint, the greedy scan agrees with the regex
engine's backtracking search.) -/
def digitsThenWsError : List Char → Bool
  | [] => false
  | c :: rest =>
    if c.isDigit then digitsThenWsError rest
    else isWsChar c && List.isPrefixOf [ 'e', 'r', 'r', 'o', 'r' ] rest

/-- Whether `Found\s\d*\serror` matches at the head of the character
list. -/
def matchFoundErrorAt : List Char → Bool
  | 'F' :: 'o' :: 'u' :: 'n' :: 'd' :: c :: rest =>
    isWsChar c && digitsThenWsError rest
  | _ => false

/-- Whether `Found\s\d*\serror` matches anywhere in the character list
(JavaScript `str.match(/Found\s\d*\serror/) !== null`). -/
def containsFoundErrorL : List Char → Bool
  | [] => false
  | c :: rest => matchFoundErrorAt (c :: rest) || containsFoundErrorL rest

/-- Whether the string matches the tsc cycle-completion marker regex. -/
def containsFoundError (s : String) : Bool :=
  containsFoundErrorL s.toList

/-- JavaScript `haystack.includes(pat)`: substring containment. -/
def containsSubstrL (pat : List Char) : List Char → Bool
  | [] => pat.isEmpty
  | c :: rest => List.isPrefixOf pat (c :: rest) || containsSubstrL pat rest

/-- Whether `s` contains `pat` as a substring. -/
def containsSubstr (s pat : String) : Bool :=
  containsSubstrL pat.toList s.toList

/-- JavaScript truthiness of a nullable string: `null`/`undefined` and
the empty string are falsy. -/
def jsTruthy : Option String → Bool
  | none => false
  | some s => s ≠ ""

/-! ### Data model -/

/-- One raw event of the ESBuild runner stream, `{buildResult,
buildFailure}`; both fields are opaque payloads, modelled as optional
strings (`none` plays JavaScript `null`/`undefined`). -/
structure ESBuildEvent where
  buildResult : Option String
  buildFailure : Option String
  deriving Repr, DecidableEq

/-- One raw fragment of the tsc runner stream, `{info, error, end}`. -/
structure TscFragment where
  info : Option String
  error : Option String
  «end» : Option Bool
  deriving Repr, DecidableEq

/-- The uniform per-runner result shape `RunnerSubcriber` (sic) of the
source: `{success, messageFragments}`. -/
structure RunnerSubcriber where
  success : Bool
  messageFragments : List String
  deriving Repr, DecidableEq

/-- The externally visible build response `ExecutorResponse`
`{success, outfile}`; `outfile` is `none` exactly when the source sets
it to `undefined`. -/
structure ExecutorResponse where
  success : Bool
  outfile : Option String
  deriving Repr, DecidableEq

/-- `path.join(a, b)` for the one shape the executor uses (joining a
configured output directory with a file name). -/
def pathJoin (a b : String) : String :=
  a ++ "/" ++ b

/-- The label prefix for ESBuild results: source `prefixESBuild`
interpolates the current `buildCounter` into
`nx-plugin-esbuild ESBuild [<counter>] <timestamp>`.  The chalk colour
codes and the wall-clock timestamp are display-only and omitted; the
counter interpolation, which the claims are about, is kept. -/
def prefixESBuild (buildCounter : Nat) : String :=
  "nx-plugin-esbuild ESBuild [" ++ toString buildCounter ++ "]"

/-- The label prefix for tsc results: source `prefixTsc` interpolates
the current `typeCounter` into `nx-plugin-esbuild TSC [<counter>]
<timestamp>` (colours and timestamp omitted as in `prefixESBuild`). -/
def prefixTsc (typeCounter : Nat) : String :=
  "nx-plugin-esbuild TSC [" ++ toString typeCounter ++ "]"

/-- Modelled from the spec: `collectESBuildRunnerMessages` lives in
`lib/message-fragments`, which is not part of the provided sources.
Per spec §4.2 the bundler variant appends, to the provided list, at
most one summary line plus any failure detail lines, each prefixed
with the label prefix and a status glyph followed by the raw
diagnostic text. -/
def collectESBuildRunnerMessages (ev : ESBuildEvent) (labelPfx : String) : List String :=
  match ev.buildFailure with
  | none => [labelPfx ++ " ✓ Build success"]
  | some failure => [labelPfx ++ " ✗ Build failure", labelPfx ++ " " ++ failure]

/-- Modelled from the spec: `collectTSCRunnerMessages` lives in
`lib/message-fragments`, which is not part of the provided sources.
Per spec §4.2 the type-checker variant emits one line per non-empty
fragment, in order, each prefixed with the label prefix. -/
def collectTSCRunnerMessages (f : TscFragment) (labelPfx : String) : List String :=
  (match f.info with
   | some s => if s = "" then [] else [labelPfx ++ " " ++ s]
   | none => []) ++
  (match f.error with
   | some s => if s = "" then [] else [labelPfx ++ " " ++ s]
   | none => [])

/-! ### Bundler Result Adapter (`esBuildSubscriber`)

Source pipeline: `runESBuild(...).pipe(tap(() => { buildCounter++; }),
map(({buildResult, buildFailure}) => ({ success: !buildFailure,
messageFragments })))` with `let buildCounter = 1` beforehand.  The
`tap` increments the counter when the event passes, before the `map`
computes `prefixESBuild()` for that same event, so the mapped event
uses the post-increment counter value. -/

/-- One bundler event through `tap` then `map`: the counter is
incremented first, then the label and the uniform result are computed
with the incremented value. -/
def esBuildStep (counter : Nat) (ev : ESBuildEvent) : Nat × RunnerSubcriber :=
  let counter2 := counter + 1
  (counter2,
   { success := !(jsTruthy ev.buildFailure)
     messageFragments := collectESBuildRunnerMessages ev (prefixESBuild counter2) })

/-- The bundler adapter run over a list of raw events, threading the
`buildCounter`. -/
def esBuildAdapterGo (counter : Nat) : List ESBuildEvent → List RunnerSubcriber
  | [] => []
  | ev :: rest =>
    let st := esBuildStep counter ev
    st.2 :: esBuildAdapterGo st.1 rest

/-- `esBuildSubscriber`: the bundler adapter over a raw event trace,
with `buildCounter` initialised to 1 as in the source.  No error
handling here — an errored source stays errored. -/
def esBuildSubscriber (src : Obs ESBuildEvent) : Obs RunnerSubcriber :=
  ⟨esBuildAdapterGo 1 src.values, src.errored⟩

/-! ### Cycle Buffer (`bufferUntil`) -/

/-- Modelled from the spec: `bufferUntil` is imported from
`nx-plugin-devkit`, which is not part of the provided sources.  Per
spec §4.1 it appends each incoming element to an accumulator, tests
the predicate on the current element after appending, emits the
accumulated batch and resets the accumulator when the predicate holds,
and discards a trailing partial accumulator when the source ends
without a final marker.  `bufferUntilGo` is the accumulator-threading
worker. -/
def bufferUntilGo (p : α → Bool) (acc : List α) : List α → List (List α)
  | [] => []
  | x :: rest =>
    if p x then (acc ++ [x]) :: bufferUntilGo p [] rest
    else bufferUntilGo p (acc ++ [x]) rest

/-- Modelled from the spec: see `bufferUntilGo`. -/
def bufferUntil (p : α → Bool) (l : List α) : List (List α) :=
  bufferUntilGo p [] l

/-! ### Type-Checker Result Adapter (`tscSubscriber`)

Source pipeline: `runTSC(opts).pipe(map(...hasErrors, messages...),
bufferUntil(predicate), tap(() => { typeCounter++; }),
map(fold batch), catchError(() => of({success:false,
messageFragments:[]})))` with `let typeCounter = 1` beforehand.
The per-fragment `map` reads `typeCounter` before the buffer, and the
`tap` increments it once per emitted batch, so all fragments of cycle
k carry label counter k. -/

/-- A fragment after the first `map` stage: the raw fields plus
`hasErrors` and the collected message lines. -/
structure TscMapped where
  info : Option String
  error : Option String
  «end» : Option Bool
  hasErrors : Bool
  messageFragments : List String
  deriving Repr, DecidableEq

/-- The per-fragment `hasErrors` computation of the first `map` stage:
`let hasErrors = Boolean(error); if (info && info.match(/Found\s\d*\serror/)
&& !info.includes('Found 0 errors')) hasErrors = true;`. -/
def rawHasErrors (f : TscFragment) : Bool :=
  jsTruthy f.error ||
    (jsTruthy f.info &&
      containsFoundError (f.info.getD "") &&
      !containsSubstr (f.info.getD "") "Found 0 errors")

/-- The `bufferUntil` predicate of the source:
`!!info?.match(/Found\s\d*\serror/) || !!error?.match(/Found\s\d*\serror/)`. -/
def isCycleMarker (f : TscFragment) : Bool :=
  (f.info.map containsFoundError).getD false ||
    (f.error.map containsFoundError).getD false

/-- The same predicate read off a mapped fragment (the source
destructures `{info, error}`, which the first `map` passes through). -/
def isCycleMarkerM (m : TscMapped) : Bool :=
  (m.info.map containsFoundError).getD false ||
    (m.error.map containsFoundError).getD false

/-- The first `map` stage on one fragment, at the current
`typeCounter`. -/
def tscMapFragment (counter : Nat) (f : TscFragment) : TscMapped :=
  { info := f.info
    error := f.error
    «end» := f.«end»
    hasErrors := rawHasErrors f
    messageFragments := collectTSCRunnerMessages f (prefixTsc counter) }

/-- The first `map` stage over the whole fragment list, threading the
`typeCounter`: a fragment is labelled with the current counter, and the
counter is incremented exactly when a cycle-completion marker passes
(the downstream `tap` fires once per emitted batch, i.e. at each
marker). -/
def tscMapStage (counter : Nat) : List TscFragment → List TscMapped
  | [] => []
  | f :: rest =>
    tscMapFragment counter f ::
      tscMapStage (if isCycleMarker f then counter + 1 else counter) rest

/-- The batch fold of the second `map` stage: `success:
!values.find(v => v.hasErrors)`, `messageFragments:
values.map(v => v.messageFragments).flat(1)`. -/
def foldBatch (b : List TscMapped) : RunnerSubcriber :=
  { success := !(b.any (fun v => v.hasErrors))
    messageFragments := (b.map (fun v => v.messageFragments)).flatten }

/-- The replacement value of the tsc adapter's `catchError`:
`of({ success: false, messageFragments: [] })`. -/
def tscRecovery : Obs RunnerSubcriber :=
  ⟨[{ success := false, messageFragments := [] }], false⟩

/-- `tscSubscriber`: the full type-checker adapter pipeline over a raw
fragment trace, with `typeCounter` initialised to 1 as in the source. -/
def tscSubscriber (src : Obs TscFragment) : Obs RunnerSubcriber :=
  catchErrorObs
    ⟨((bufferUntil isCycleMarkerM (tscMapStage 1 src.values)).map foldBatch),
     src.errored⟩
    tscRecovery

/-! ### Stream Combinator and Mode Dispatcher (`buildExecutor`)

Source: after the two adapters, `baseESBuildSubscriber =
esBuildSubscriber.pipe(tap(log), map(to ExecutorResponse),
catchError(() => of({success:false, outfile:undefined})))` serves the
skip-type-check paths; otherwise `baseSubscriber` is either
`merge(esBuildSubscriber, tscSubscriber).pipe(startWith(starting),
tap(log), map(...))` or `zip(esBuildSubscriber,
tscSubscriber).pipe(startWith([startingES, startingTsc]), tap(log),
map(...))`, and the dispatch returns `.toPromise()` when `watch` is
false and the async iterator of the stream when it is true. -/

/-- The synthetic starting value of the `merge` branch's `startWith`
(chalk colouring of the `i` glyph omitted). -/
def startMerge : RunnerSubcriber :=
  { success := true
    messageFragments :=
      ["i ESBuild Compiler Starting...", "i TypeScript Compiler Starting..."] }

/-- The ESBuild half of the synthetic starting pair of the `zip`
branch's `startWith`. -/
def startZipES : RunnerSubcriber :=
  { success := true, messageFragments := ["i ESBuild Compiler Starting..."] }

/-- The tsc half of the synthetic starting pair of the `zip` branch's
`startWith`. -/
def startZipTsc : RunnerSubcriber :=
  { success := true, messageFragments := ["i TypeScript Compiler Starting..."] }

/-- `baseESBuildSubscriber`: the bundler-only pipeline used on the
skip-type-check paths — log, map to `ExecutorResponse` with
`outfile = path.join(outputPath, 'main.js')`, and `catchError` to
`{success:false, outfile:undefined}`. -/
def baseESBuildSubscriber (outputPath : String) (es : Obs RunnerSubcriber) :
    Obs ExecutorResponse :=
  catchErrorObs
    (mapObs
      (fun r => { success := r.success, outfile := some (pathJoin outputPath "main.js") })
      es)
    ⟨[{ success := false, outfile := none }], false⟩

/-- The emitted pair sequence of the `zip` branch: the synthetic
starting pair prepended (by `startWith`) to the index-wise pairing of
the two adapters' emissions. -/
def zipBranchPairs (es ts : Obs RunnerSubcriber) :
    List (RunnerSubcriber × RunnerSubcriber) :=
  (startZipES, startZipTsc) :: es.values.zip ts.values

/-- The console lines produced by the `zip` branch's `tap`: for each
pair (the synthetic one included, since `startWith` sits before the
`tap`), first `console.log(tscResults.messageFragments.join('\n'))`,
then `console.log(buildResults.messageFragments.join('\n'))`. -/
def zipBranchLog (es ts : Obs RunnerSubcriber) : List String :=
  ((zipBranchPairs es ts).map
    (fun p =>
      [String.intercalate "\n" p.2.messageFragments,
       String.intercalate "\n" p.1.messageFragments])).flatten

/-- The `zip` branch of `baseSubscriber`: pair index-wise, seed the
synthetic starting pair, log, and map each pair to an
`ExecutorResponse` with `success = buildResults?.success &&
tscResults?.success` and `outfile = path.join(outputPath, 'main.js')`.
No `catchError` here: an error of either adapter's stream errors the
combined stream. -/
def zipBranch (outputPath : String) (es ts : Obs RunnerSubcriber) :
    Obs ExecutorResponse :=
  mapObs
    (fun p =>
      { success := p.1.success && p.2.success
        outfile := some (pathJoin outputPath "main.js") })
    (startWithObs (startZipES, startZipTsc) (zipObs es ts))

/-- The `merge` branch of `baseSubscriber`, at one arrival schedule:
interleave the two adapters' emissions, seed the synthetic starting
value, log, and map each `RunnerSubcriber` to an `ExecutorResponse`
with `success = res?.success ?? true` (the operand is never
null/undefined here, so this is `res.success`) and the joined outfile.
No `catchError` here either. -/
def mergeBranch (outputPath : String) (sched : List Bool)
    (es ts : Obs RunnerSubcriber) : Obs ExecutorResponse :=
  mapObs
    (fun r =>
      { success := r.success
        outfile := some (pathJoin outputPath "main.js") })
    (startWithObs startMerge (mergeObs sched es ts))

/-- The configuration values of the normalized options that the core
dispatch reads. -/
structure NormalizedOptions where
  watch : Bool
  skipTypeCheck : Bool
  useMergeCombine : Bool
  outputPath : String
  deriving Repr, DecidableEq

/-- What the executor hands back to the caller: a promise (one-shot
mode) or the live stream exposed for iteration (watch mode). -/
inductive ExecutorOutput where
  | oneShot : Except Unit (Option ExecutorResponse) → ExecutorOutput
  | watchSeq : Obs ExecutorResponse → ExecutorOutput

/-- The combined stream the non-skip paths dispatch on: the `merge` or
`zip` branch over the two adapters, per `useMergeCombine`. -/
def baseSubscriber (options : NormalizedOptions) (sched : List Bool)
    (esSrc : Obs ESBuildEvent) (tsSrc : Obs TscFragment) : Obs ExecutorResponse :=
  if options.useMergeCombine then
    mergeBranch options.outputPath sched (esBuildSubscriber esSrc) (tscSubscriber tsSrc)
  else
    zipBranch options.outputPath (esBuildSubscriber esSrc) (tscSubscriber tsSrc)

/-- `buildExecutor`'s mode dispatch: the two skip-type-check
short-circuits return the bundler-only pipeline (one-shot: its
promise; watch: the stream), otherwise the combined stream is
dispatched the same way.  `sched` fixes the arrival order the `merge`
branch observes. -/
def buildExecutor (options : NormalizedOptions) (esSrc : Obs ESBuildEvent)
    (tsSrc : Obs TscFragment) (sched : List Bool) : ExecutorOutput :=
  let baseES := baseESBuildSubscriber options.outputPath (esBuildSubscriber esSrc)
  if !options.watch && options.skipTypeCheck then
    ExecutorOutput.oneShot (toPromiseObs baseES)
  else if options.watch && options.skipTypeCheck then
    ExecutorOutput.watchSeq baseES
  else if !options.watch then
    ExecutorOutput.oneShot (toPromiseObs (baseSubscriber options sched esSrc tsSrc))
  else
    ExecutorOutput.watchSeq (baseSubscriber options sched esSrc tsSrc)

/-! ### Spec-side characterization of `hasErrors` (for refinement
comparison)

The claim describes `hasErrors` as: an `error` field is present, or
`info` matches the completion marker with a matched error count that is
not exactly zero.  The source instead tests the literal substring
`'Found 0 errors'`.  The following definitions formalise the claim's
words so the two can be compared. -/

/-- The digit run of a `Found\s\d*\serror` match starting at the head
of the list, when there is one. -/
def foundErrorDigitsAt : List Char → Option (List Char)
  | 'F' :: 'o' :: 'u' :: 'n' :: 'd' :: c :: rest =>
    if isWsChar c && digitsThenWsError rest then
      some (rest.takeWhile Char.isDigit)
    else none
  | _ => none

/-- The digit run of the first `Found\s\d*\serror` match in the list
(the count the regex engine would report), when the pattern matches. -/
def firstFoundErrorDigits : List Char → Option (List Char)
  | [] => none
  | c :: rest =>
    match foundErrorDigitsAt (c :: rest) with
    | some ds => some ds
    | none => firstFoundErrorDigits rest

/-- Numeric value of a digit run (an empty run reads as 0). -/
def digitsVal (ds : List Char) : Nat :=
  ds.foldl (fun acc c => 10 * acc + (c.toNat - 48)) 0

/-- The claim's characterization of a fragment's `hasErrors`, taken
from the spec's words: an `error` field is present, or `info` matches
the completion marker and the matched error count is not exactly
zero. -/
def specHasErrors (f : TscFragment) : Bool :=
  f.error.isSome ||
    (match f.info with
     | some s =>
       match firstFoundErrorDigits s.toList with
       | some ds => decide (digitsVal ds ≠ 0)
       | none => false
     | none => false)

/-! ### Helper lemmas -/

theorem bufferUntilGo_length (p : α → Bool) (l : List α) :
    ∀ acc, (bufferUntilGo p acc l).length = l.countP p := by
  induction l with
  | nil => intro acc; simp [bufferUntilGo, List.countP_nil]
  | cons x rest ih =>
    intro acc
    by_cases h : p x = true
    · simp [bufferUntilGo, h, ih, List.countP_cons]
    · simp [bufferUntilGo, h, ih, List.countP_cons]

theorem bufferUntilGo_batches (p : α → Bool) (l : List α) :
    ∀ acc, (∀ a ∈ acc, p a = false) →
      ∀ b ∈ bufferUntilGo p acc l,
        ∃ pre fin, b = pre ++ [fin] ∧ p fin = true ∧ ∀ x ∈ pre, p x = false := by
  induction l with
  | nil => intro acc _ b hb; simp [bufferUntilGo] at hb
  | cons x rest ih =>
    intro acc hacc b hb
    by_cases h : p x = true
    · simp only [bufferUntilGo, h, if_pos] at hb
      rcases List.mem_cons.mp hb with hb | hb
      · exact ⟨acc, x, hb, h, hacc⟩
      · exact ih [] (by simp) b hb
    · simp only [bufferUntilGo, h, if_neg, Bool.not_eq_true] at hb
      refine ih (acc ++ [x]) ?_ b hb
      intro a ha
      rcases List.mem_append.mp ha with ha | ha
      · exact hacc a ha
      · rcases List.mem_singleton.mp ha with rfl
        exact Bool.not_eq_true _ ▸ (by simpa using h)

theorem bufferUntilGo_flatten (p : α → Bool) (l : List α) :
    ∀ acc, (∀ a ∈ acc, p a = false) →
      ∃ suffix, (bufferUntilGo p acc l).flatten ++ suffix = acc ++ l ∧
        ∀ x ∈ suffix, p x = false := by
  induction l with
  | nil =>
    intro acc hacc
    exact ⟨acc, by simp [bufferUntilGo], hacc⟩
  | cons x rest ih =>
    intro acc hacc
    by_cases h : p x = true
    · obtain ⟨s, hs, hsp⟩ := ih [] (by simp)
      refine ⟨s, ?_, hsp⟩
      simp only [bufferUntilGo, h, if_pos, List.flatten_cons, List.append_assoc, hs]
      simp [hs]
    · have hext : ∀ a ∈ acc ++ [x], p a = false := by
        intro a ha
        rcases List.mem_append.mp ha with ha | ha
        · exact hacc a ha
        · rcases List.mem_singleton.mp ha with rfl
          simpa using h
      obtain ⟨s, hs, hsp⟩ := ih (acc ++ [x]) hext
      refine ⟨s, ?_, hsp⟩
      simp only [bufferUntilGo, h, if_neg, Bool.not_eq_true] at hs ⊢
      rw [hs]
      simp

theorem isCycleMarkerM_tscMapFragment (c : Nat) (f : TscFragment) :
    isCycleMarkerM (tscMapFragment c f) = isCycleMarker f := rfl

theorem hasErrors_tscMapFragment (c : Nat) (f : TscFragment) :
    (tscMapFragment c f).hasErrors = rawHasErrors f := rfl

theorem any_map_id (f : α → Bool) (l : List α) : (l.map f).any id = l.any f := by
  induction l with
  | nil => rfl
  | cons x rest ih => simp [List.any_cons, ih]

theorem map_any_of_map_eq {accM : List TscMapped} {accR : List TscFragment}
    (hacc : accM.map (fun v => v.hasErrors) = accR.map rawHasErrors) :
    accM.any (fun v => v.hasErrors) = accR.any rawHasErrors := by
  have h1 : (accM.map (fun v => v.hasErrors)).any id = (accR.map rawHasErrors).any id := by
    rw [hacc]
  rwa [any_map_id, any_map_id] at h1

theorem bufferUntilGo_tscMapStage_success (l : List TscFragment) :
    ∀ (c : Nat) (accM : List TscMapped) (accR : List TscFragment),
      accM.map (fun v => v.hasErrors) = accR.map rawHasErrors →
      (bufferUntilGo isCycleMarkerM accM (tscMapStage c l)).map
          (fun b => b.any (fun v => v.hasErrors))
        = (bufferUntilGo isCycleMarker accR l).map (fun b => b.any rawHasErrors) := by
  induction l with
  | nil => intro c accM accR _; simp [tscMapStage, bufferUntilGo]
  | cons f rest ih =>
    intro c accM accR hacc
    have hext : (accM ++ [tscMapFragment c f]).map (fun v => v.hasErrors)
        = (accR ++ [f]).map rawHasErrors := by
      simp [hacc, hasErrors_tscMapFragment]
    by_cases h : isCycleMarker f = true
    · simp only [tscMapStage, bufferUntilGo, isCycleMarkerM_tscMapFragment, h, if_pos,
        List.map_cons]
      exact congrArg₂ _ (map_any_of_map_eq hext) (ih _ [] [] rfl)
    · simp only [tscMapStage, bufferUntilGo, isCycleMarkerM_tscMapFragment, h, if_neg,
        Bool.not_eq_true]
      exact ih _ (accM ++ [tscMapFragment c f]) (accR ++ [f]) hext

theorem zip_getElem?_of (xs : List α) :
    ∀ (ys : List β) (i : Nat) (a : α) (b : β),
      xs[i]? = some a → ys[i]? = some b → (xs.zip ys)[i]? = some (a, b) := by
  induction xs with
  | nil => intro ys i a b ha; simp at ha
  | cons x xs ih =>
    intro ys i a b ha hb
    cases ys with
    | nil => simp at hb
    | cons y ys =>
      cases i with
      | zero =>
        simp at ha hb
        simp [List.zip_cons_cons, ha, hb]
      | succ i =>
        simp only [List.getElem?_cons_succ] at ha hb
        simpa [List.zip_cons_cons] using ih ys i a b ha hb

theorem esBuildAdapterGo_getElem? (evs : List ESBuildEvent) :
    ∀ (c i : Nat) (ev : ESBuildEvent), evs[i]? = some ev →
      (esBuildAdapterGo c evs)[i]? = some
        { success := !(jsTruthy ev.buildFailure)
          messageFragments :=
            collectESBuildRunnerMessages ev (prefixESBuild (c + i + 1)) } := by
  induction evs with
  | nil => intro c i ev h; simp at h
  | cons e rest ih =>
    intro c i ev h
    cases i with
    | zero =>
      simp at h
      subst h
      simp [esBuildAdapterGo, esBuildStep]
    | succ i =>
      simp only [List.getElem?_cons_succ] at h
      have hi := ih (c + 1) i ev h
      simp only [esBuildAdapterGo, esBuildStep, List.getElem?_cons_succ]
      rw [hi]
      have harith : c + 1 + i + 1 = c + (i + 1) + 1 := by ring
      rw [harith]

theorem interleaving_nil_right (xs : List α) : Interleaving xs [] xs := by
  induction xs with
  | nil => exact Interleaving.nil
  | cons x rest ih => exact Interleaving.left ih

theorem interleaving_nil_left (ys : List α) : Interleaving [] ys ys := by
  induction ys with
  | nil => exact Interleaving.nil
  | cons y rest ih => exact Interleaving.right ih

theorem interleaving_append (xs ys : List α) : Interleaving xs ys (xs ++ ys) := by
  induction xs with
  | nil => simpa using interleaving_nil_left ys
  | cons x rest ih => exact Interleaving.left ih

theorem interleave_isInterleaving (sched : List Bool) :
    ∀ (xs ys : List α), Interleaving xs ys (interleave sched xs ys) := by
  induction sched with
  | nil =>
    intro xs ys
    cases xs with
    | nil => simpa [interleave] using interleaving_nil_left ys
    | cons x xs =>
      cases ys with
      | nil => simpa [interleave] using interleaving_nil_right (x :: xs)
      | cons y ys => simpa [interleave] using interleaving_append (x :: xs) (y :: ys)
  | cons choice s ih =>
    intro xs ys
    cases choice with
    | true =>
      cases xs with
      | nil => simpa [interleave] using interleaving_nil_left ys
      | cons x xs =>
        cases ys with
        | nil => simpa [interleave] using interleaving_nil_right (x :: xs)
        | cons y ys =>
          simpa [interleave] using Interleaving.left (ih xs (y :: ys))
    | false =>
      cases xs with
      | nil => simpa [interleave] using interleaving_nil_left ys
      | cons x xs =>
        cases ys with
        | nil => simpa [interleave] using interleaving_nil_right (x :: xs)
        | cons y ys =>
          simpa [interleave] using Interleaving.right (ih (x :: xs) ys)

theorem flatten_two_getElem? (l : List γ) (f g : γ → β) :
    ∀ i, ((l.map (fun a => [f a, g a])).flatten)[2 * i]? = (l[i]?).map f ∧
      ((l.map (fun a => [f a, g a])).flatten)[2 * i + 1]? = (l[i]?).map g := by
  induction l with
  | nil => intro i; simp
  | cons a rest ih =>
    intro i
    cases i with
    | zero => simp
    | succ i =>
      have h2 : 2 * (i + 1) = (2 * i + 1) + 1 := by ring
      have h3 : 2 * (i + 1) + 1 = ((2 * i + 1) + 1) + 1 := by ring
      constructor
      · rw [h2]
        simpa using (ih i).1
      · rw [h3]
        simpa using (ih i).2

theorem catchErrorObs_errored (s h : Obs α) :
    (catchErrorObs s h).errored = (s.errored && h.errored) := by
  by_cases hs : s.errored = true
  · simp [catchErrorObs, hs]
  · simp only [Bool.not_eq_true] at hs
    simp [catchErrorObs, hs]

theorem tscSubscriber_errored (src : Obs TscFragment) :
    (tscSubscriber src).errored = false := by
  simp [tscSubscriber, catchErrorObs_errored, tscRecovery]

theorem baseESBuildSubscriber_errored (op : String) (es : Obs RunnerSubcriber) :
    (baseESBuildSubscriber op es).errored = false := by
  simp [baseESBuildSubscriber, catchErrorObs_errored]

theorem baseSubscriber_errored (options : NormalizedOptions) (sched : List Bool)
    (esSrc : Obs ESBuildEvent) (tsSrc : Obs TscFragment) :
    (baseSubscriber options sched esSrc tsSrc).errored = esSrc.errored := by
  by_cases hm : options.useMergeCombine = true
  · simp [baseSubscriber, hm, mergeBranch, mapObs, startWithObs, mergeObs,
      esBuildSubscriber, tscSubscriber_errored]
  · simp only [Bool.not_eq_true] at hm
    simp [baseSubscriber, hm, zipBranch, mapObs, startWithObs, zipObs,
      esBuildSubscriber, tscSubscriber_errored]

/-- C1 counterexample: with N = 1 — the bundler adapter and the
type-checker adapter each emitting exactly one UniformResult — the
synchronized-pairing (`zip`) branch emits 2 combined results, not
exactly N = 1, because its `startWith` seeds a synthetic starting pair
ahead of the real pairings. -/
theorem zip_pairing_exact_count_counterexample :
    (zipBranch "out" ⟨[{ success := true, messageFragments := [] }], false⟩
        ⟨[{ success := true, messageFragments := [] }], false⟩).values.length = 2
    ∧ (2 : Nat) ≠ 1 :=
  ⟨rfl, by decide⟩

/-- C1 (amended): under the synchronized-pairing policy, for every run
in which the bundler adapter emits N UniformResults and the
type-checker adapter emits N UniformResults, the combinator emits
exactly N + 1 combined results: a synthetic starting result with
`success = true` first, followed by the N real pairings, where the
(i+1)-th emitted result has `success` equal to the conjunction of the
i-th bundler result's success and the i-th type-check result's
success. -/
theorem zip_pairing_amended (op : String) (es ts : Obs RunnerSubcriber) (n : Nat)
    (hes : es.values.length = n) (hts : ts.values.length = n) :
    (zipBranch op es ts).values.length = n + 1
    ∧ (zipBranch op es ts).values[0]? =
        some { success := true, outfile := some (pathJoin op "main.js") }
    ∧ ∀ i r1 r2, es.values[i]? = some r1 → ts.values[i]? = some r2 →
        (zipBranch op es ts).values[i + 1]? =
          some { success := r1.success && r2.success
                 outfile := some (pathJoin op "main.js") } := by
  refine ⟨?_, ?_, ?_⟩
  · simp [zipBranch, mapObs, startWithObs, zipObs, hes, hts]
  · simp [zipBranch, mapObs, startWithObs, zipObs, startZipES, startZipTsc]
  · intro i r1 r2 h1 h2
    have hz := zip_getElem?_of es.values ts.values i r1 r2 h1 h2
    simp only [zipBranch, mapObs, startWithObs, zipObs, List.map_cons,
      List.getElem?_cons_succ, List.getElem?_map, hz]
    rfl

/-- Witness for `zip_pairing_amended` at N = 1 with a failing bundler
result and a passing type-check result. -/
theorem zip_pairing_amended_witness :
    (zipBranch "o" ⟨[{ success := false, messageFragments := [] }], false⟩
        ⟨[{ success := true, messageFragments := [] }], false⟩).values.length = 1 + 1
    ∧ (zipBranch "o" ⟨[{ success := false, messageFragments := [] }], false⟩
        ⟨[{ success := true, messageFragments := [] }], false⟩).values[0 + 1]? =
        some { success := false && true, outfile := some (pathJoin "o" "main.js") } := by
  have h := zip_pairing_amended "o" ⟨[{ success := false, messageFragments := [] }], false⟩
    ⟨[{ success := true, messageFragments := [] }], false⟩ 1 rfl rfl
  exact ⟨h.1, h.2.2 0 _ _ rfl rfl⟩

/-- C2 counterexample: a one-shot (`watch=false`) run whose combined
stream emits two values — the synthetic starting value `{success:true}`
first, then the real pairing `{success:false}` — resolves to the
second (last) value, not the first emitted one, because the dispatch
uses `toPromise()` (wait for completion, resolve the last value), not
take-1 semantics. -/
theorem oneshot_take_one_counterexample :
    buildExecutor ⟨false, false, false, "out"⟩
        ⟨[{ buildResult := none, buildFailure := some "boom" }], false⟩
        ⟨[{ info := some "Found 0 errors", error := none, «end» := none }], false⟩ []
      = ExecutorOutput.oneShot
          (Except.ok (some { success := false, outfile := some "out/main.js" }))
    ∧ (baseSubscriber ⟨false, false, false, "out"⟩ []
        ⟨[{ buildResult := none, buildFailure := some "boom" }], false⟩
        ⟨[{ info := some "Found 0 errors", error := none, «end» := none }], false⟩).values[0]?
      = some { success := true, outfile := some "out/main.js" }
    ∧ ({ success := false, outfile := some "out/main.js" } : ExecutorResponse)
      ≠ { success := true, outfile := some "out/main.js" } :=
  ⟨rfl, rfl, by decide⟩

/-- C2 (amended): when `watch` is false the executor resolves to one
promise whose value is the LAST value the relevant stream emits before
completing (`toPromise` semantics): on the combined path (with a
non-erroring bundler source) the stream is nonempty, so exactly one
BuildResponse is resolved, namely the final emitted one; on the
skip-type-check path the promise likewise resolves with the last value
of the bundler-only pipeline. -/
theorem oneshot_last_value_amended (options : NormalizedOptions)
    (esSrc : Obs ESBuildEvent) (tsSrc : Obs TscFragment) (sched : List Bool)
    (hw : options.watch = false) :
    (options.skipTypeCheck = false → esSrc.errored = false →
      buildExecutor options esSrc tsSrc sched
        = ExecutorOutput.oneShot (Except.ok
            ((baseSubscriber options sched esSrc tsSrc).values.getLast?))
      ∧ ∃ r, (baseSubscriber options sched esSrc tsSrc).values.getLast? = some r)
    ∧ (options.skipTypeCheck = true →
      buildExecutor options esSrc tsSrc sched
        = ExecutorOutput.oneShot (Except.ok
            ((baseESBuildSubscriber options.outputPath
                (esBuildSubscriber esSrc)).values.getLast?))) := by
  constructor
  · intro hskip herr
    constructor
    · have hbe : (baseSubscriber options sched esSrc tsSrc).errored = false := by
        rw [baseSubscriber_errored, herr]
      simp [buildExecutor, hw, hskip, toPromiseObs, hbe]
    · have hne : (baseSubscriber options sched esSrc tsSrc).values ≠ [] := by
        by_cases hm : options.useMergeCombine = true
        · simp [baseSubscriber, hm, mergeBranch, mapObs, startWithObs, mergeObs]
        · simp only [Bool.not_eq_true] at hm
          simp [baseSubscriber, hm, zipBranch, mapObs, startWithObs, zipObs]
      have := List.getLast?_isSome.mpr hne
      exact Option.isSome_iff_exists.mp this
  · intro hskip
    have hbe : (baseESBuildSubscriber options.outputPath
        (esBuildSubscriber esSrc)).errored = false :=
      baseESBuildSubscriber_errored _ _
    simp [buildExecutor, hw, hskip, toPromiseObs, hbe]

/-- Witness for `oneshot_last_value_amended` on the combined path with
one failing bundler event and one clean type-check cycle. -/
theorem oneshot_last_value_amended_witness :
    buildExecutor ⟨false, false, false, "out"⟩
        ⟨[{ buildResult := none, buildFailure := some "boom" }], false⟩
        ⟨[{ info := some "Found 0 errors", error := none, «end» := none }], false⟩ []
      = ExecutorOutput.oneShot (Except.ok
          ((baseSubscriber ⟨false, false, false, "out"⟩ []
            ⟨[{ buildResult := none, buildFailure := some "boom" }], false⟩
            ⟨[{ info := some "Found 0 errors", error := none, «end» := none }],
             false⟩).values.getLast?))
    ∧ ∃ r, (baseSubscriber ⟨false, false, false, "out"⟩ []
        ⟨[{ buildResult := none, buildFailure := some "boom" }], false⟩
        ⟨[{ info := some "Found 0 errors", error := none, «end» := none }],
         false⟩).values.getLast? = some r :=
  (oneshot_last_value_amended ⟨false, false, false, "out"⟩
    ⟨[{ buildResult := none, buildFailure := some "boom" }], false⟩
    ⟨[{ info := some "Found 0 errors", error := none, «end» := none }], false⟩
    [] rfl).1 rfl rfl

/-- C3 counterexample: with type-checking enabled (zip policy) and a
bundler source that errors, the combined pipeline errors: the one-shot
executor returns a rejected promise — the raw error escapes to the
caller — and no `{success:false, outfile:undefined}` value is ever
emitted.  The `catchError` that converts pipeline errors exists only
in the bundler-only (skip-type-check) pipeline. -/
theorem combined_pipeline_catch_counterexample :
    buildExecutor ⟨false, false, false, "out"⟩ ⟨[], true⟩ ⟨[], false⟩ []
      = ExecutorOutput.oneShot (Except.error ())
    ∧ (baseSubscriber ⟨false, false, false, "out"⟩ [] ⟨[], true⟩ ⟨[], false⟩).errored = true
    ∧ ∀ r ∈ (baseSubscriber ⟨false, false, false, "out"⟩ [] ⟨[], true⟩ ⟨[], false⟩).values,
        r ≠ { success := false, outfile := none } :=
  ⟨rfl, rfl, by decide⟩

/-- C3 (amended): the catch-and-convert to `{success:false,
outfile:undefined}` applies only to the bundler-only pipeline used
when type-checking is skipped — there an erroring source is absorbed
and the stream ends with that recovery value.  The combined zip/merge
pipeline has no such top-level catch: an error of the bundler adapter's
stream leaves the combined stream errored (only the type-checker
adapter absorbs its own errors). -/
theorem pipeline_error_handling_amended (op : String) (sched : List Bool)
    (es ts : Obs RunnerSubcriber) (h : es.errored = true) :
    ((baseESBuildSubscriber op es).errored = false
      ∧ (baseESBuildSubscriber op es).values.getLast? =
          some { success := false, outfile := none })
    ∧ (zipBranch op es ts).errored = true
    ∧ (mergeBranch op sched es ts).errored = true := by
  refine ⟨⟨baseESBuildSubscriber_errored op es, ?_⟩, ?_, ?_⟩
  · simp [baseESBuildSubscriber, catchErrorObs, mapObs, h, List.getLast?_concat]
  · simp [zipBranch, mapObs, startWithObs, zipObs, h]
  · simp [mergeBranch, mapObs, startWithObs, mergeObs, h]

/-- Witness for `pipeline_error_handling_amended` at an immediately
erroring bundler stream. -/
theorem pipeline_error_handling_amended_witness :
    ((baseESBuildSubscriber "out" ⟨[], true⟩).errored = false
      ∧ (baseESBuildSubscriber "out" ⟨[], true⟩).values.getLast? =
          some { success := false, outfile := none })
    ∧ (zipBranch "out" ⟨[], true⟩ ⟨[], false⟩).errored = true
    ∧ (mergeBranch "out" [] ⟨[], true⟩ ⟨[], false⟩).errored = true :=
  pipeline_error_handling_amended "out" [] ⟨[], true⟩ ⟨[], false⟩ rfl

/-- C4 counterexample: on a single successful bundler event, the first
emitted result's single message line carries the label prefix with the
number 2, not 1: `buildCounter` starts at 1 and the `tap` increments
it before `prefixESBuild()` is read for that same event, so the first
emitted prefix uses the post-increment value 2. -/
theorem first_label_one_counterexample :
    (esBuildSubscriber ⟨[{ buildResult := none, buildFailure := none }], false⟩).values
      = [{ success := true,
           messageFragments := [prefixESBuild 2 ++ " ✓ Build success"] }]
    ∧ prefixESBuild 2 ≠ prefixESBuild 1
    ∧ [prefixESBuild 2 ++ " ✓ Build success"] ≠ [prefixESBuild 1 ++ " ✓ Build success"] :=
  ⟨rfl, by decide, by decide⟩

/-- C4 (amended): for every sequence of bundler events, the rebuild
counter is incremented immediately upon receipt of each event, before
the label for that same event is computed; since the counter starts at
1, the emitted label prefixes are 2-indexed: the i-th event (0-based)
is labelled with `prefixESBuild (i + 2)`, so the first emitted bundler
prefix carries the number 2. -/
theorem build_counter_labels_amended (src : Obs ESBuildEvent) (i : Nat)
    (ev : ESBuildEvent) (h : src.values[i]? = some ev) :
    (esBuildSubscriber src).values[i]? = some
      { success := !(jsTruthy ev.buildFailure)
        messageFragments := collectESBuildRunnerMessages ev (prefixESBuild (i + 2)) } := by
  have hg := esBuildAdapterGo_getElem? src.values 1 i ev h
  have harith : 1 + i + 1 = i + 2 := by ring
  rw [harith] at hg
  simpa [esBuildSubscriber] using hg

/-- Witness for `build_counter_labels_amended` at the first event of a
one-event stream. -/
theorem build_counter_labels_amended_witness :
    (esBuildSubscriber ⟨[{ buildResult := some "ok", buildFailure := none }], false⟩).values[0]?
      = some { success := !(jsTruthy (none : Option String))
               messageFragments :=
                 collectESBuildRunnerMessages
                   { buildResult := some "ok", buildFailure := none }
                   (prefixESBuild (0 + 2)) } :=
  build_counter_labels_amended
    ⟨[{ buildResult := some "ok", buildFailure := none }], false⟩ 0
    { buildResult := some "ok", buildFailure := none } rfl

/-- C5 (confirmed): the Cycle Buffer over the executor's marker
predicate emits exactly one batch per fragment whose `info` or `error`
matches the `Found <count> error` marker; every emitted batch is a
contiguous run ending at its marker fragment with no earlier marker
inside it (so no batch spans two markers, and the accumulator restarts
empty after each emission); the concatenation of the batches is a
prefix of the input whose remainder (a trailing partial cycle)
contains no marker. -/
theorem cycle_buffer_batches (l : List TscFragment) :
    (bufferUntil isCycleMarker l).length = l.countP isCycleMarker
    ∧ (∀ b ∈ bufferUntil isCycleMarker l,
        ∃ pre fin, b = pre ++ [fin] ∧ isCycleMarker fin = true ∧
          ∀ x ∈ pre, isCycleMarker x = false)
    ∧ (∃ suffix, (bufferUntil isCycleMarker l).flatten ++ suffix = l ∧
        ∀ x ∈ suffix, isCycleMarker x = false) := by
  refine ⟨bufferUntilGo_length _ l [], ?_, ?_⟩
  · exact bufferUntilGo_batches isCycleMarker l [] (by simp)
  · simpa using bufferUntilGo_flatten isCycleMarker l [] (by simp)

/-- Witness for `cycle_buffer_batches`: the single batch of a
three-fragment input with one marker ends at the marker. -/
theorem cycle_buffer_batches_witness :
    ∃ pre fin,
      [({ info := some "Checking", error := none, «end» := none } : TscFragment),
       { info := some "Found 0 errors", error := none, «end» := none }]
        = pre ++ [fin] ∧ isCycleMarker fin = true ∧
        ∀ x ∈ pre, isCycleMarker x = false :=
  (cycle_buffer_batches
      [{ info := some "Checking", error := none, «end» := none },
       { info := some "Found 0 errors", error := none, «end» := none },
       { info := some "tail", error := none, «end» := none }]).2.1
    [{ info := some "Checking", error := none, «end» := none },
     { info := some "Found 0 errors", error := none, «end» := none }]
    (by decide)

/-- C6 counterexample: the fragment `info = "Found 0 error"` (singular,
no `error` field) matches the completion marker with matched error
count exactly zero, so under the claim's characterization it has no
errors and its batch would fold to `success = true`; the code instead
tests the literal substring `'Found 0 errors'`, which this text does
not contain, and folds the batch to `success = false`. -/
theorem batch_success_spec_count_counterexample :
    (tscSubscriber ⟨[{ info := some "Found 0 error", error := none, «end» := none }],
        false⟩).values.map (fun r => r.success) = [false]
    ∧ specHasErrors { info := some "Found 0 error", error := none, «end» := none } = false :=
  ⟨rfl, rfl⟩

/-- C6 (amended): for every completed CycleBatch, the folded
UniformResult has `success = true` iff no fragment in the batch
satisfies `rawHasErrors` — an `error` field that is truthy, or an
`info` text that matches the completion marker and does NOT contain
the literal substring `'Found 0 errors'`; in particular a batch whose
only marker fragment is `info = "Found 0 errors"` with no `error`
field yields `success = true`, and one containing
`info = "Found 2 errors"` yields `success = false`. -/
theorem batch_success_amended (l : List TscFragment) :
    ((tscSubscriber ⟨l, false⟩).values.map (fun r => r.success)
        = (bufferUntil isCycleMarker l).map (fun b => !(b.any rawHasErrors)))
    ∧ (tscSubscriber ⟨[{ info := some "Found 0 errors", error := none, «end» := none }],
        false⟩).values.map (fun r => r.success) = [true]
    ∧ (tscSubscriber ⟨[{ info := some "Found 2 errors", error := none, «end» := none }],
        false⟩).values.map (fun r => r.success) = [false] := by
  refine ⟨?_, rfl, rfl⟩
  have hcore := bufferUntilGo_tscMapStage_success l 1 [] [] rfl
  have hmm :
      (tscSubscriber ⟨l, false⟩).values.map (fun r => r.success)
        = (bufferUntilGo isCycleMarkerM [] (tscMapStage 1 l)).map
            (fun b => !(b.any (fun v => v.hasErrors))) := by
    simp [tscSubscriber, catchErrorObs, bufferUntil, List.map_map, foldBatch,
      Function.comp]
  rw [hmm]
  have h1 : (bufferUntilGo isCycleMarkerM [] (tscMapStage 1 l)).map
      (fun b => !(b.any (fun v => v.hasErrors)))
      = ((bufferUntilGo isCycleMarkerM [] (tscMapStage 1 l)).map
          (fun b => b.any (fun v => v.hasErrors))).map (fun x => !x) := by
    rw [List.map_map]; rfl
  have h2 : (bufferUntil isCycleMarker l).map (fun b => !(b.any rawHasErrors))
      = ((bufferUntilGo isCycleMarker [] l).map
          (fun b => b.any rawHasErrors)).map (fun x => !x) := by
    rw [List.map_map]; rfl
  rw [h1, h2, hcore]

/-- C7 (confirmed): under the independent-merge policy, the combined
stream emits one result per adapter emission, in arrival order (any
order-preserving interleaving of the two adapters' outputs), after the
synthetic starting value; the result emitted for the arrival at
position i carries exactly the success of the adapter result that just
fired (last-writer snapshot).  In particular, if only the type-checker
fires with a failing result while the bundler is silent, the next
combined result has `success = false`. -/
theorem merge_last_writer (op : String) (sched : List Bool)
    (es ts : Obs RunnerSubcriber) :
    Interleaving es.values ts.values (interleave sched es.values ts.values)
    ∧ (mergeBranch op sched es ts).values[0]? =
        some { success := true, outfile := some (pathJoin op "main.js") }
    ∧ ∀ i r, (interleave sched es.values ts.values)[i]? = some r →
        (mergeBranch op sched es ts).values[i + 1]? =
          some { success := r.success, outfile := some (pathJoin op "main.js") } := by
  refine ⟨interleave_isInterleaving sched es.values ts.values, ?_, ?_⟩
  · simp [mergeBranch, mapObs, startWithObs, mergeObs, startMerge]
  · intro i r h
    simp only [mergeBranch, mapObs, startWithObs, mergeObs, List.map_cons,
      List.getElem?_cons_succ, List.getElem?_map, h]
    rfl

/-- Witness for `merge_last_writer`: bundler silent, type-checker emits
one failing result — the first post-synthetic combined result has
`success = false`. -/
theorem merge_last_writer_witness :
    (mergeBranch "out" [] ⟨[], false⟩
        ⟨[{ success := false, messageFragments := ["TS2322"] }], false⟩).values[0 + 1]? =
      some { success := false, outfile := some (pathJoin "out" "main.js") } :=
  (merge_last_writer "out" [] ⟨[], false⟩
      ⟨[{ success := false, messageFragments := ["TS2322"] }], false⟩).2.2 0
    { success := false, messageFragments := ["TS2322"] } rfl

/-- C8 (confirmed): a failure of the type-checker backend's own stream
is caught inside the type-checker adapter and converted into one
terminal UniformResult `{success:false, messageFragments:[]}`: the
adapter's output never carries the error termination (so the
combinator is not aborted), and its last emitted value is the recovery
result. -/
theorem tsc_crash_absorbed (src : Obs TscFragment) (h : src.errored = true) :
    (tscSubscriber src).errored = false
    ∧ (tscSubscriber src).values.getLast? =
        some { success := false, messageFragments := [] } := by
  refine ⟨tscSubscriber_errored src, ?_⟩
  simp [tscSubscriber, catchErrorObs, h, tscRecovery, List.getLast?_concat]

/-- Witness for `tsc_crash_absorbed` at an immediately crashing
type-checker stream. -/
theorem tsc_crash_absorbed_witness :
    (tscSubscriber ⟨[], true⟩).errored = false
    ∧ (tscSubscriber ⟨[], true⟩).values.getLast? =
        some { success := false, messageFragments := [] } :=
  tsc_crash_absorbed ⟨[], true⟩ rfl

/-- C9 (confirmed): every combined result emitted by either combination
policy carries `outfile = path.join(outputPath, 'main.js')`, whatever
its success flag; and in the bundler-only pipeline — the only place the
caught transport-failure value exists — a result with `outfile = none`
can only be that caught value `{success:false, outfile:undefined}`. -/
theorem outfile_always_populated (op : String) (sched : List Bool)
    (es ts esr : Obs RunnerSubcriber) :
    (∀ r ∈ (zipBranch op es ts).values, r.outfile = some (pathJoin op "main.js"))
    ∧ (∀ r ∈ (mergeBranch op sched es ts).values,
        r.outfile = some (pathJoin op "main.js"))
    ∧ (∀ r ∈ (baseESBuildSubscriber op esr).values,
        r.outfile = none → r = { success := false, outfile := none }) := by
  refine ⟨?_, ?_, ?_⟩
  · intro r hr
    simp only [zipBranch, mapObs, startWithObs, zipObs] at hr
    obtain ⟨a, _, rfl⟩ := List.mem_map.mp hr
    rfl
  · intro r hr
    simp only [mergeBranch, mapObs, startWithObs, mergeObs] at hr
    obtain ⟨a, _, rfl⟩ := List.mem_map.mp hr
    rfl
  · intro r hr hnone
    by_cases he : esr.errored = true
    · simp only [baseESBuildSubscriber, catchErrorObs, mapObs, he, if_true] at hr
      rcases List.mem_append.mp hr with hr | hr
      · obtain ⟨a, _, rfl⟩ := List.mem_map.mp hr
        simp at hnone
      · rcases List.mem_singleton.mp hr with rfl
        rfl
    · simp only [Bool.not_eq_true] at he
      simp only [baseESBuildSubscriber, catchErrorObs, mapObs, he,
        Bool.false_eq_true, if_false] at hr
      obtain ⟨a, _, rfl⟩ := List.mem_map.mp hr
      simp at hnone

/-- Witness for `outfile_always_populated` at the synthetic starting
result of an otherwise silent zip run. -/
theorem outfile_always_populated_witness :
    ({ success := true, outfile := some (pathJoin "out" "main.js") } :
        ExecutorResponse).outfile = some (pathJoin "out" "main.js") :=
  (outfile_always_populated "out" [] ⟨[], false⟩ ⟨[], false⟩ ⟨[], false⟩).1
    { success := true, outfile := some (pathJoin "out" "main.js") } (by decide)

/-- C10 (confirmed): in synchronized-pairing mode, for every emitted
combined pair — the synthetic starting pair included — the `tap` logs
the type-checker result's message fragments (joined with newlines into
one block) strictly before the bundler result's fragments: in the log
line sequence, the pair at index i contributes the tsc block at
position 2i and the bundler block at position 2i+1. -/
theorem zip_log_order (es ts : Obs RunnerSubcriber) (i : Nat)
    (p : RunnerSubcriber × RunnerSubcriber)
    (h : (zipBranchPairs es ts)[i]? = some p) :
    (zipBranchLog es ts)[2 * i]? =
      some (String.intercalate "\n" p.2.messageFragments)
    ∧ (zipBranchLog es ts)[2 * i + 1]? =
      some (String.intercalate "\n" p.1.messageFragments) := by
  have hf := flatten_two_getElem? (zipBranchPairs es ts)
    (fun q => String.intercalate "\n" q.2.messageFragments)
    (fun q => String.intercalate "\n" q.1.messageFragments) i
  constructor
  · show ((zipBranchPairs es ts).map (fun q =>
        [String.intercalate "\n" q.2.messageFragments,
         String.intercalate "\n" q.1.messageFragments])).flatten[2 * i]? = _
    rw [hf.1, h]
    rfl
  · show ((zipBranchPairs es ts).map (fun q =>
        [String.intercalate "\n" q.2.messageFragments,
         String.intercalate "\n" q.1.messageFragments])).flatten[2 * i + 1]? = _
    rw [hf.2, h]
    rfl

/-- Witness for `zip_log_order` at the first real pair of a
one-event-per-source run. -/
theorem zip_log_order_witness :
    (zipBranchLog ⟨[{ success := false, messageFragments := ["b1", "b2"] }], false⟩
        ⟨[{ success := true, messageFragments := ["t1"] }], false⟩)[2 * 1]? =
      some (String.intercalate "\n" ["t1"])
    ∧ (zipBranchLog ⟨[{ success := false, messageFragments := ["b1", "b2"] }], false⟩
        ⟨[{ success := true, messageFragments := ["t1"] }], false⟩)[2 * 1 + 1]? =
      some (String.intercalate "\n" ["b1", "b2"]) :=
  zip_log_order ⟨[{ success := false, messageFragments := ["b1", "b2"] }], false⟩
    ⟨[{ success := true, messageFragments := ["t1"] }], false⟩ 1
    ({ success := false, messageFragments := ["b1", "b2"] },
     { success := true, messageFragments := ["t1"] }) rfl
